import Mathlib

/-!
Verification development for the knowledge-base persistence component of the
datacation chatbot workspace (src/tools/knowledge.py), its CLI callers
(src/titanic_cli.py, src/scripts/titanic_data_analyst_cli.py via
src/tools/titanic_agent.py) and the statistics inspector
(src/tools/database.py).

The Python code is shallowly embedded: JSON values as produced by the json
module are an inductive type (numbers as rationals: CPython round-trips a
float through json.dump/json.load exactly, and no claim here depends on
float arithmetic); the dataclass records keep their dynamic nature, since
`DataInsight(**item)` accepts arbitrary JSON values for every field; file
system state is explicit, and a write that can fail or be interrupted is
modelled by explicit outcome flags and by a micro-step trace.
-/

set_option autoImplicit false
set_option linter.unusedVariables false

/-- A JSON value as held by Python after `json.load` / before `json.dump`. -/
inductive JsonVal where
  | null : JsonVal
  | bool : Bool → JsonVal
  | num : Rat → JsonVal
  | str : String → JsonVal
  | arr : List JsonVal → JsonVal
  | obj : List (String × JsonVal) → JsonVal

/-- Embeds `@dataclass DataInsight` (knowledge.py lines 10-19).  Python is
dynamically typed: `DataInsight(**item)` stores whatever JSON value the file
held for each field, so every field is a `JsonVal`.  Records built by the
application itself use `.str` fields and a `.num` confidence. -/
structure DataInsight where
  timestamp : JsonVal
  category : JsonVal
  description : JsonVal
  evidence : JsonVal
  confidence : JsonVal
  source : JsonVal

/-- A value stored in the `insights` field of an `AnalysisStep`: either a
real `DataInsight` instance (as built by the application) or a plain JSON
value (a dict, as produced by `AnalysisStep(**item)` on load, which does not
reconstruct the nested dataclass). -/
inductive InsVal where
  | inst : DataInsight → InsVal
  | js : JsonVal → InsVal

/-- The `insights` field of an `AnalysisStep`.  After a load it holds the raw
JSON value: a JSON array becomes a Python list of plain values, any other
JSON value is stored as-is (`AnalysisStep(**item)` performs no validation). -/
inductive InsField where
  | pyList : List InsVal → InsField
  | raw : JsonVal → InsField

/-- Embeds `@dataclass AnalysisStep` (knowledge.py lines 22-31). -/
structure AnalysisStep where
  timestamp : JsonVal
  question : JsonVal
  approach : JsonVal
  code : JsonVal
  result : JsonVal
  insights : InsField

/-- `dataclasses.asdict` on a `DataInsight`: a dict in field order. -/
def asdictInsight (d : DataInsight) : JsonVal :=
  .obj [("timestamp", d.timestamp), ("category", d.category),
        ("description", d.description), ("evidence", d.evidence),
        ("confidence", d.confidence), ("source", d.source)]

/-- Serialization of one element of an `insights` list: a `DataInsight`
instance becomes its field dict, a plain JSON value is deep-copied as-is. -/
def serializeInsVal : InsVal → JsonVal
  | .inst d => asdictInsight d
  | .js j => j

/-- Serialization of the `insights` field of an `AnalysisStep`. -/
def serializeInsField : InsField → JsonVal
  | .pyList xs => .arr (xs.map serializeInsVal)
  | .raw j => j

/-- `dataclasses.asdict` on an `AnalysisStep` (recursing into the nested
insights, whether they are dataclass instances or plain dicts). -/
def asdictStep (s : AnalysisStep) : JsonVal :=
  .obj [("timestamp", s.timestamp), ("question", s.question),
        ("approach", s.approach), ("code", s.code), ("result", s.result),
        ("insights", serializeInsField s.insights)]

/-- Content of `insights.json` after `_save_knowledge` (knowledge.py 66-67). -/
def serializeInsights (xs : List DataInsight) : JsonVal :=
  .arr (xs.map asdictInsight)

/-- Content of `analysis_history.json` after `_save_knowledge` (lines 69-70). -/
def serializeHistory (xs : List AnalysisStep) : JsonVal :=
  .arr (xs.map asdictStep)

/-- Errors raised while loading persisted files.  The source defines no
dedicated error class: `json.load` raises `json.JSONDecodeError` on invalid
text and `Dataclass(**item)` / iteration raise `TypeError`. -/
inductive LoadErr where
  | jsonDecodeError : LoadErr
  | typeError : LoadErr
deriving DecidableEq

/-- State of one persisted file.  `torn` stands for a file that exists but
does not parse as JSON (for example the empty file left behind by the
truncation performed by `open(path, "w")`). -/
inductive FileContent where
  | absent : FileContent
  | torn : FileContent
  | json : JsonVal → FileContent

/-- The knowledge directory: the two persisted files (knowledge.py 45-46). -/
structure Disk where
  insightsFile : FileContent
  analysisFile : FileContent

/-- First value bound to a key in a Python dict literal list.  `json.load`
never produces duplicate keys, so lookup order is immaterial. -/
def lookupKey (k : String) : List (String × JsonVal) → Option JsonVal
  | [] => none
  | p :: rest => if p.1 = k then some p.2 else lookupKey k rest

/-- Membership of a key in a list of field names. -/
def keyAllowed : List String → String → Bool
  | [], _ => false
  | k2 :: rest, k => if k = k2 then true else keyAllowed rest k

/-- The keyword parameters accepted by `DataInsight(**item)`. -/
def insightKeys : List String :=
  ["timestamp", "category", "description", "evidence", "confidence", "source"]

/-- The keyword parameters accepted by `AnalysisStep(**item)`. -/
def stepKeys : List String :=
  ["timestamp", "question", "approach", "code", "result", "insights"]

/-- `DataInsight(**item)`: succeeds exactly when `item` is a dict whose key
set is exactly the six field names (a missing or unexpected keyword raises
`TypeError`); field values are stored without any validation. -/
def decodeInsight : JsonVal → Except LoadErr DataInsight
  | .obj fields =>
    match lookupKey "timestamp" fields, lookupKey "category" fields,
          lookupKey "description" fields, lookupKey "evidence" fields,
          lookupKey "confidence" fields, lookupKey "source" fields with
    | some t, some c, some de, some e, some cf, some s =>
        if fields.all fun p => keyAllowed insightKeys p.1 then
          .ok ⟨t, c, de, e, cf, s⟩
        else .error .typeError
    | _, _, _, _, _, _ => .error .typeError
  | _ => .error .typeError

/-- How `AnalysisStep(**item)` stores the `insights` value: a JSON array is a
Python list of plain values, anything else is kept as the raw value; the
nested dicts are NOT turned back into `DataInsight` instances. -/
def pyInsightsField : JsonVal → InsField
  | .arr xs => .pyList (xs.map InsVal.js)
  | j => .raw j

/-- `AnalysisStep(**item)`: same keyword discipline as `decodeInsight`. -/
def decodeStep : JsonVal → Except LoadErr AnalysisStep
  | .obj fields =>
    match lookupKey "timestamp" fields, lookupKey "question" fields,
          lookupKey "approach" fields, lookupKey "code" fields,
          lookupKey "result" fields, lookupKey "insights" fields with
    | some t, some q, some a, some c, some r, some i =>
        if fields.all fun p => keyAllowed stepKeys p.1 then
          .ok ⟨t, q, a, c, r, pyInsightsField i⟩
        else .error .typeError
    | _, _, _, _, _, _ => .error .typeError
  | _ => .error .typeError

/-- Python iteration over the value returned by `json.load`: a list yields
its elements, a string yields its characters, a dict yields its keys, and a
number, boolean or null is not iterable (`TypeError`). -/
def pyIter : JsonVal → Except LoadErr (List JsonVal)
  | .arr xs => .ok xs
  | .str s => .ok (s.toList.map fun c => JsonVal.str (String.mk [c]))
  | .obj fields => .ok (fields.map fun p => JsonVal.str p.1)
  | _ => .error .typeError

/-- The list comprehension `[Dataclass(**item) for item in data]`: decodes
left to right, raising at the first bad element. -/
def decodeEach {α : Type} (decode : JsonVal → Except LoadErr α) :
    List JsonVal → Except LoadErr (List α)
  | [] => .ok []
  | x :: rest => do
    let a ← decode x
    let as ← decodeEach decode rest
    return a :: as

/-- One branch of `_load_knowledge` (knowledge.py 54-62): a missing file
gives the empty collection; an existing file is parsed by `json.load`
(raising on invalid text), iterated, and each element decoded. -/
def loadCollection {α : Type} (decode : JsonVal → Except LoadErr α) :
    FileContent → Except LoadErr (List α)
  | .absent => .ok []
  | .torn => .error .jsonDecodeError
  | .json j => do
    let items ← pyIter j
    decodeEach decode items

/-- In-memory state of a `KnowledgeBase` instance. -/
structure KB where
  insights : List DataInsight
  analysis_history : List AnalysisStep

/-- `KnowledgeBase._load_knowledge`, as run by `__init__` once the knowledge
directory exists: loads the insights file first, then the analysis file; the
first failure propagates. -/
def load_knowledge (disk : Disk) : Except LoadErr KB := do
  let ins ← loadCollection decodeInsight disk.insightsFile
  let hist ← loadCollection decodeStep disk.analysisFile
  return ⟨ins, hist⟩

/-- Outcome of `_save_knowledge`: whether it completed without raising, the
resulting disk, and the files it wrote, in order. -/
structure SaveResult where
  ok : Bool
  disk : Disk
  writes : List String

/-- `KnowledgeBase._save_knowledge` (knowledge.py 64-70): rewrites the whole
insights file, then the whole analysis file.  `wIns` / `wAna` say whether
each `open(..., "w")` succeeds; a failed open raises before touching the
file and aborts the save (the second file is then never written). -/
def save_knowledge (wIns wAna : Bool) (kb : KB) (disk : Disk) : SaveResult :=
  if wIns then
    let disk1 : Disk := { disk with insightsFile := .json (serializeInsights kb.insights) }
    if wAna then
      ⟨true,
       { disk1 with analysisFile := .json (serializeHistory kb.analysis_history) },
       ["insights.json", "analysis_history.json"]⟩
    else ⟨false, disk1, ["insights.json"]⟩
  else ⟨false, disk, []⟩

/-- Micro-step refinement of a successful `_save_knowledge`: the disk states
observable while it runs.  `open(path, "w")` truncates the file in place
(leaving it torn) before `json.dump` writes the new content; there is no
temporary file and no atomic replace in the source. -/
def saveTrace (kb : KB) (disk : Disk) : List Disk :=
  let d1 : Disk := { disk with insightsFile := .torn }
  let d2 : Disk := { d1 with insightsFile := .json (serializeInsights kb.insights) }
  let d3 : Disk := { d2 with analysisFile := .torn }
  let d4 : Disk := { d3 with analysisFile := .json (serializeHistory kb.analysis_history) }
  [d1, d2, d3, d4]

/-- Outcome of a mutation (`add_insight` / `record_analysis`). -/
structure MutResult where
  ok : Bool
  kb : KB
  disk : Disk
  writes : List String

/-- `KnowledgeBase.add_insight` (knowledge.py 72-79): appends to the
in-memory list, then saves.  A save failure propagates as an exception; the
append is not undone. -/
def add_insight (wIns wAna : Bool) (kb : KB) (disk : Disk) (insight : DataInsight) :
    MutResult :=
  let kb1 : KB := { kb with insights := kb.insights ++ [insight] }
  let s := save_knowledge wIns wAna kb1 disk
  ⟨s.ok, kb1, s.disk, s.writes⟩

/-- `KnowledgeBase.record_analysis` (knowledge.py 81-88): appends to the
in-memory history, then saves; a save failure propagates, the append stays. -/
def record_analysis (wIns wAna : Bool) (kb : KB) (disk : Disk) (step : AnalysisStep) :
    MutResult :=
  let kb1 : KB := { kb with analysis_history := kb.analysis_history ++ [step] }
  let s := save_knowledge wIns wAna kb1 disk
  ⟨s.ok, kb1, s.disk, s.writes⟩

/-- `KnowledgeBase.get_relevant_insights` (knowledge.py 90-100): returns the
whole collection, ignoring the question (semantic search is a TODO). -/
def get_relevant_insights (kb : KB) (question : String) : List DataInsight :=
  kb.insights

/-- `KnowledgeBase.get_similar_analyses` (knowledge.py 102-112): returns the
whole collection, ignoring the question. -/
def get_similar_analyses (kb : KB) (question : String) : List AnalysisStep :=
  kb.analysis_history

/-- The public operations of the store, with write outcomes for mutators. -/
inductive KBOp where
  | addInsight : Bool → Bool → DataInsight → KBOp
  | recordAnalysis : Bool → Bool → AnalysisStep → KBOp
  | getRelevantInsights : String → KBOp
  | getSimilarAnalyses : String → KBOp

/-- Effect of one operation on the in-memory and on-disk state. -/
def stepOp (op : KBOp) (st : KB × Disk) : KB × Disk :=
  match op with
  | .addInsight wi wa i => let r := add_insight wi wa st.1 st.2 i; (r.kb, r.disk)
  | .recordAnalysis wi wa s => let r := record_analysis wi wa st.1 st.2 s; (r.kb, r.disk)
  | .getRelevantInsights _ => st
  | .getSimilarAnalyses _ => st

/-- A sequence of operations, run left to right. -/
def runOps (ops : List KBOp) (st : KB × Disk) : KB × Disk :=
  ops.foldl (fun s op => stepOp op s) st

/-- What one persisted analysis step becomes after a reload: the scalar
fields are unchanged, but each nested insight instance has been replaced by
its plain JSON field dict (`AnalysisStep(**item)` never rebuilds the nested
`DataInsight` dataclass). -/
def reloadStep (s : AnalysisStep) : AnalysisStep :=
  { s with insights := pyInsightsField (serializeInsField s.insights) }

/-- The insight built inside `record_analysis` of src/tools/titanic_agent.py
(lines 120-130); `ts` stands for the `datetime.now().isoformat()` string. -/
def mkCliInsight (ts code : String) : DataInsight :=
  ⟨.str ts, .str "data_structure", .str "Column names and data types",
   .str code, .num 1, .str "direct_analysis"⟩

/-- The analysis step built by `record_analysis` of titanic_agent.py (lines
111-142): one generated insight, approach fixed to the given label; `tsI`
and `tsS` are the two `datetime.now().isoformat()` results. -/
def cliRecordStep (tsI tsS question code result : String) : AnalysisStep :=
  ⟨.str tsS, .str question, .str "pandas_analysis", .str code, .str result,
   .pyList [.inst (mkCliInsight tsI code)]⟩

/-- Value interpolation in an f-string.  On the CLI paths modelled here only
string values are ever formatted, so the repr of other values is left
unspecified (it never occurs in any statement below). -/
def pyFormat : JsonVal → String
  | .str s => s
  | _ => ""

/-- Observable outcome of one CLI invocation. -/
structure CliRun where
  output : List String
  exitCode : Nat
  kb : KB
  disk : Disk

/-- `main` of src/titanic_cli.py (lines 61-88; src/scripts/
titanic_data_analyst_cli.py lines 64-92 is line-for-line the same from this
point), starting after the agent produced `result` for `question` (model
construction and the agent run are external collaborators assumed to
succeed).  The analysis is recorded BEFORE the result is printed; an
exception raised by the record step reaches the handler, which prints an
error line and calls `sys.exit(1)`. -/
def cliMain (tsI tsS question result errMsg : String) (wIns wAna : Bool)
    (kb : KB) (disk : Disk) : CliRun :=
  let out0 := ["\nAnalyzing..."]
  let r := record_analysis wIns wAna kb disk (cliRecordStep tsI tsS question result result)
  if r.ok then
    let out1 := out0 ++ ["\nResult:", result]
    let similar := get_similar_analyses r.kb question
    let out2 := out1 ++
      (if similar.isEmpty then []
       else "\nSimilar past analyses:" ::
         similar.flatMap fun a =>
           ["\nQuestion: " ++ pyFormat a.question, "Result: " ++ pyFormat a.result])
    ⟨out2, 0, r.kb, r.disk⟩
  else
    ⟨out0 ++ ["\nError: " ++ errMsg], 1, r.kb, r.disk⟩

/-- `AVG(Survived)` as computed by SQLite over the titanic table: NULL on an
empty table, otherwise the exact mean of the column. -/
def sqlAvg (xs : List Int) : Option Rat :=
  match xs with
  | [] => none
  | _ => some ((xs.sum : Rat) / (xs.length : Rat))

/-- `TitanicDatabase.get_survival_rate` (src/tools/database.py 84-87):
`float(df['rate'].iloc[0] * 100)` where `rate` is `AVG(Survived)`. -/
def get_survival_rate (survived : List Int) : Option Rat :=
  (sqlAvg survived).map fun rate => rate * 100

/-- Mean of the Survived column, written from the words of the claim (for
comparison with `get_survival_rate`). -/
def columnMean (xs : List Int) : Rat :=
  (xs.sum : Rat) / (xs.length : Rat)

/-- Spec section 6 shape of one insights-file entry: an object carrying
exactly the six insight fields. -/
def isInsightObject : JsonVal → Bool
  | .obj fields =>
      (insightKeys.all fun k => (lookupKey k fields).isSome) &&
      (fields.all fun p => keyAllowed insightKeys p.1)
  | _ => false

/-- Spec section 6 shape of `insights.json`: an array of insight objects. -/
def expectedInsightsShape : JsonVal → Bool
  | .arr xs => xs.all isInsightObject
  | _ => false

/-- Spec section 6 shape of one `analysis_history.json` entry. -/
def isStepObject : JsonVal → Bool
  | .obj fields =>
      (stepKeys.all fun k => (lookupKey k fields).isSome) &&
      (fields.all fun p => keyAllowed stepKeys p.1)
  | _ => false

/-- Spec section 6 shape of `analysis_history.json`. -/
def expectedHistoryShape : JsonVal → Bool
  | .arr xs => xs.all isStepObject
  | _ => false

/-- The badness condition of claim C7 for the insights file: the file exists
but cannot be parsed as the expected structure. -/
def insightsFileUnparseable : FileContent → Prop
  | .absent => False
  | .torn => True
  | .json j => expectedInsightsShape j = false

/-- The badness condition of claim C7 for the analysis-history file. -/
def historyFileUnparseable : FileContent → Prop
  | .absent => False
  | .torn => True
  | .json j => expectedHistoryShape j = false

/-- A reader observing disk state `d` during a mutation sees, for each file,
either the pre-mutation or the post-mutation content (the guarantee claim C2
attributes to the write discipline). -/
def observesPrePost (pre post d : Disk) : Prop :=
  (d.insightsFile = pre.insightsFile ∨ d.insightsFile = post.insightsFile) ∧
  (d.analysisFile = pre.analysisFile ∨ d.analysisFile = post.analysisFile)

/-- A concrete insight, shaped like one the application would build. -/
def insightEx : DataInsight :=
  ⟨.str "2024-01-01T00:00:00", .str "pattern", .str "female passengers survived more often",
   .str "df.groupby", .num 1, .str "direct_analysis"⟩

/-- A concrete analysis step carrying one nested insight instance. -/
def stepEx : AnalysisStep :=
  cliRecordStep "t1" "t2" "How many survived?" "342" "342"

/-- A store holding one insight, with a consistent disk image. -/
def kbEx : KB := ⟨[insightEx], []⟩

/-- The disk image matching `kbEx`. -/
def diskEx : Disk := ⟨.json (serializeInsights [insightEx]), .json (.arr [])⟩

/-- An insights file whose content is an empty JSON object: present, not of
the documented shape, yet silently accepted by the loader. -/
def diskEmptyObj : Disk := ⟨.json (.obj []), .absent⟩

/-! ### Helper lemmas -/

theorem decodeInsight_asdict (d : DataInsight) :
    decodeInsight (asdictInsight d) = .ok d := rfl

theorem decodeStep_asdict (s : AnalysisStep) :
    decodeStep (asdictStep s) = .ok (reloadStep s) := rfl

theorem decodeEach_insights (xs : List DataInsight) :
    decodeEach decodeInsight (xs.map asdictInsight) = .ok xs := by
  induction xs with
  | nil => rfl
  | cons d rest ih =>
      simp [decodeEach, decodeInsight_asdict, ih, List.map_cons, bind, Except.bind,
            pure, Except.pure]

theorem decodeEach_steps (xs : List AnalysisStep) :
    decodeEach decodeStep (xs.map asdictStep) = .ok (xs.map reloadStep) := by
  induction xs with
  | nil => rfl
  | cons s rest ih =>
      simp [decodeEach, decodeStep_asdict, ih, List.map_cons, bind, Except.bind,
            pure, Except.pure]

theorem loadCollection_arr {α : Type} (decode : JsonVal → Except LoadErr α)
    (items : List JsonVal) :
    loadCollection decode (.json (.arr items)) = decodeEach decode items := rfl

theorem loadInsights_serialize (xs : List DataInsight) :
    loadCollection decodeInsight (.json (serializeInsights xs)) = .ok xs := by
  show decodeEach decodeInsight (xs.map asdictInsight) = .ok xs
  exact decodeEach_insights xs

theorem loadHistory_serialize (xs : List AnalysisStep) :
    loadCollection decodeStep (.json (serializeHistory xs)) = .ok (xs.map reloadStep) := by
  show decodeEach decodeStep (xs.map asdictStep) = .ok (xs.map reloadStep)
  exact decodeEach_steps xs

theorem serializeInsVal_js (j : JsonVal) : serializeInsVal (.js j) = j := rfl

theorem map_serialize_js (xs : List JsonVal) :
    xs.map (serializeInsVal ∘ InsVal.js) = xs := by
  induction xs with
  | nil => rfl
  | cons j rest ih => simp [serializeInsVal, ih]

theorem asdict_reloadStep (s : AnalysisStep) : asdictStep (reloadStep s) = asdictStep s := by
  cases s with
  | mk t q a c r ins =>
      cases ins with
      | pyList xs =>
          simp [asdictStep, reloadStep, serializeInsField, pyInsightsField,
                List.map_map, serializeInsVal]
      | raw j =>
          cases j <;>
            simp [asdictStep, reloadStep, serializeInsField, pyInsightsField,
                  List.map_map, serializeInsVal, map_serialize_js]

theorem runOps_record (steps : List AnalysisStep) (kb : KB) (disk : Disk) :
    (runOps (steps.map fun s => KBOp.recordAnalysis true true s) (kb, disk)).1 =
      ⟨kb.insights, kb.analysis_history ++ steps⟩ := by
  induction steps generalizing kb disk with
  | nil => simp [runOps]
  | cons s rest ih =>
      have h := ih ⟨kb.insights, kb.analysis_history ++ [s]⟩
        (record_analysis true true kb disk s).disk
      show (runOps _ (stepOp (KBOp.recordAnalysis true true s) (kb, disk))).1 = _
      rw [show stepOp (KBOp.recordAnalysis true true s) (kb, disk) =
            (⟨kb.insights, kb.analysis_history ++ [s]⟩,
             (record_analysis true true kb disk s).disk) from rfl, h]
      simp

theorem runOps_add (xs : List DataInsight) (kb : KB) (disk : Disk) :
    (runOps (xs.map fun i => KBOp.addInsight true true i) (kb, disk)).1 =
      ⟨kb.insights ++ xs, kb.analysis_history⟩ ∧
    (xs = [] → (runOps (xs.map fun i => KBOp.addInsight true true i) (kb, disk)).2 = disk) ∧
    (xs ≠ [] → (runOps (xs.map fun i => KBOp.addInsight true true i) (kb, disk)).2 =
      ⟨.json (serializeInsights (kb.insights ++ xs)),
       .json (serializeHistory kb.analysis_history)⟩) := by
  induction xs generalizing kb disk with
  | nil =>
      refine ⟨by simp [runOps], fun _ => rfl, fun h => absurd rfl h⟩
  | cons i rest ih =>
      have h := ih ⟨kb.insights ++ [i], kb.analysis_history⟩
        ⟨.json (serializeInsights (kb.insights ++ [i])),
         .json (serializeHistory kb.analysis_history)⟩
      have hstep : stepOp (KBOp.addInsight true true i) (kb, disk) =
          (⟨kb.insights ++ [i], kb.analysis_history⟩,
           ⟨.json (serializeInsights (kb.insights ++ [i])),
            .json (serializeHistory kb.analysis_history)⟩) := rfl
      refine ⟨?_, fun hc => (List.cons_ne_nil i rest hc).elim, fun _ => ?_⟩
      · show (runOps _ (stepOp (KBOp.addInsight true true i) (kb, disk))).1 = _
        rw [hstep, h.1]
        simp
      · show (runOps _ (stepOp (KBOp.addInsight true true i) (kb, disk))).2 = _
        rw [hstep]
        rcases eq_or_ne rest [] with hr | hr
        · subst hr
          rw [h.2.1 rfl]
        · rw [h.2.2 hr]
          simp

theorem sum_bounds_01 (xs : List Int) (h : ∀ x ∈ xs, x = 0 ∨ x = 1) :
    0 ≤ xs.sum ∧ xs.sum ≤ (xs.length : Int) := by
  induction xs with
  | nil => simp
  | cons a rest ih =>
      have ha := h a (List.mem_cons_self a rest)
      have hr := ih fun x hx => h x (List.mem_cons_of_mem a hx)
      simp only [List.sum_cons, List.length_cons]
      push_cast
      rcases ha with h0 | h1 <;> omega

theorem decodeInsight_ok_iff (j : JsonVal) :
    (∃ d, decodeInsight j = .ok d) ↔ isInsightObject j = true := by
  cases j with
  | obj fields =>
      cases h1 : lookupKey "timestamp" fields <;>
      cases h2 : lookupKey "category" fields <;>
      cases h3 : lookupKey "description" fields <;>
      cases h4 : lookupKey "evidence" fields <;>
      cases h5 : lookupKey "confidence" fields <;>
      cases h6 : lookupKey "source" fields <;>
      cases hc : fields.all (fun p =>
          keyAllowed ["timestamp", "category", "description", "evidence",
                      "confidence", "source"] p.1) <;>
        simp [decodeInsight, isInsightObject, insightKeys, h1, h2, h3, h4, h5, h6, hc]
  | null => simp [decodeInsight, isInsightObject]
  | bool b => simp [decodeInsight, isInsightObject]
  | num q => simp [decodeInsight, isInsightObject]
  | str s => simp [decodeInsight, isInsightObject]
  | arr xs => simp [decodeInsight, isInsightObject]

/-! ### Claim theorems -/

/-- Claim C1, counterexample: on a store with empty collections, a forced
write failure during `add_insight` leaves the appended insight in the
in-memory collection — the claim says the append is rolled back, so the
in-memory collection should have equalled the empty pre-call collection. -/
theorem C1_counterexample :
    (add_insight false true ⟨[], []⟩ ⟨.absent, .absent⟩ insightEx).ok = false ∧
    (add_insight false true ⟨[], []⟩ ⟨.absent, .absent⟩ insightEx).kb.insights ≠ [] := by
  refine ⟨rfl, ?_⟩
  show [] ++ [insightEx] ≠ []
  simp

/-- Claim C1, amended: when the file write fails, `add_insight` and
`record_analysis` propagate the raw exception (no `PersistenceError` class
exists in the source) and the in-memory append is NOT rolled back: the
mutated collection keeps the new record while the disk is unchanged, so
memory and disk diverge.  Both failure points (insights-file open,
analysis-file open) are covered. -/
theorem C1_no_rollback (kb : KB) (disk : Disk) (insight : DataInsight)
    (step : AnalysisStep) :
    (add_insight false true kb disk insight).ok = false ∧
    (add_insight false true kb disk insight).kb.insights = kb.insights ++ [insight] ∧
    (add_insight false true kb disk insight).kb.analysis_history = kb.analysis_history ∧
    (add_insight false true kb disk insight).disk = disk ∧
    (add_insight true false kb disk insight).ok = false ∧
    (add_insight true false kb disk insight).kb.insights = kb.insights ++ [insight] ∧
    (record_analysis false true kb disk step).ok = false ∧
    (record_analysis false true kb disk step).kb.analysis_history =
      kb.analysis_history ++ [step] ∧
    (record_analysis false true kb disk step).kb.insights = kb.insights ∧
    (record_analysis false true kb disk step).disk = disk ∧
    (record_analysis true false kb disk step).ok = false ∧
    (record_analysis true false kb disk step).kb.analysis_history =
      kb.analysis_history ++ [step] :=
  ⟨rfl, rfl, rfl, rfl, rfl, rfl, rfl, rfl, rfl, rfl, rfl, rfl⟩

/-- Claim C2, counterexample: during `_save_knowledge` on a store holding
one insight with a consistent disk image, an intermediate state of the save
has the insights file torn — neither the pre-mutation nor the post-mutation
content — so a reader interrupting the write does not find the original
file intact. -/
theorem C2_counterexample :
    ¬ ∀ d ∈ saveTrace kbEx diskEx,
        observesPrePost diskEx (save_knowledge true true kbEx diskEx).disk d := by
  intro h
  have h1 := h { diskEx with insightsFile := .torn } (List.Mem.head _)
  rcases h1.1 with hc | hc <;> exact FileContent.noConfusion hc

/-- Claim C2, amended: `_save_knowledge` overwrites each file in place —
`open(path, "w")` truncates the file before `json.dump` writes the new
content; there is no temporary file and no atomic replace.  The very first
intermediate state of the save has the insights file torn, a store
constructed at that point fails to load, and only the final state carries
the new serialized contents. -/
theorem C2_in_place_overwrite (kb : KB) (disk : Disk) :
    (saveTrace kb disk).head? = some { disk with insightsFile := FileContent.torn } ∧
    (saveTrace kb disk).getLast? = some (save_knowledge true true kb disk).disk ∧
    ∀ a : FileContent, load_knowledge ⟨.torn, a⟩ = .error .jsonDecodeError :=
  ⟨rfl, rfl, fun _ => rfl⟩

/-- Claim C3, counterexample: persist one analysis step that owns one
insight record, then construct a fresh store over the resulting disk: the
reloaded analysis history differs from the in-memory one, because the
nested insight comes back as a plain JSON dict instead of an insight
record. -/
theorem C3_counterexample :
    load_knowledge (record_analysis true true ⟨[], []⟩ ⟨.absent, .absent⟩ stepEx).disk ≠
      .ok (record_analysis true true ⟨[], []⟩ ⟨.absent, .absent⟩ stepEx).kb := by
  intro h
  have hL : load_knowledge
      (record_analysis true true ⟨[], []⟩ ⟨.absent, .absent⟩ stepEx).disk =
      .ok ⟨[], [reloadStep stepEx]⟩ := rfl
  rw [hL] at h
  simp [reloadStep, stepEx, cliRecordStep, mkCliInsight, pyInsightsField,
        serializeInsField, serializeInsVal, asdictInsight, record_analysis,
        save_knowledge] at h

/-- Claim C3, amended: reloading a persisted analysis history preserves
every scalar field and all nested field values — re-serializing the
reloaded collection reproduces the file content exactly — but each nested
insight is reconstructed as a plain JSON object, not as an insight record:
the reloaded step is `reloadStep` of the original, which differs from the
original whenever a record carries an insight-record instance. -/
theorem C3_reload_as_dicts (hist : List AnalysisStep) :
    loadCollection decodeStep (.json (serializeHistory hist)) =
      .ok (hist.map reloadStep) ∧
    (hist.map reloadStep).map asdictStep = hist.map asdictStep := by
  refine ⟨loadHistory_serialize hist, ?_⟩
  induction hist with
  | nil => rfl
  | cons s rest ih => simp [asdict_reloadStep, ih]

/-- Claim C4, confirmed: both retrieval operations ignore the question and
return the entire respective collection unchanged (hence in insertion
order); on an empty store each returns the empty sequence.  Both are total
functions — no error path exists. -/
theorem C4_return_all (kb : KB) (question : String) :
    get_relevant_insights kb question = kb.insights ∧
    get_similar_analyses kb question = kb.analysis_history ∧
    get_relevant_insights ⟨[], []⟩ question = [] ∧
    get_similar_analyses ⟨[], []⟩ question = [] :=
  ⟨rfl, rfl, rfl, rfl⟩

/-- Claim C5, counterexample: a CLI run whose analysis produced the result
string while the persistence step fails prints only the analyzing banner
and an error line, and exits with status 1 — the computed result is never
delivered to the user. -/
theorem C5_counterexample :
    "342" ∉ (cliMain "t1" "t2" "How many survived?" "342" "disk full" false false
        ⟨[], []⟩ ⟨.absent, .absent⟩).output ∧
    (cliMain "t1" "t2" "How many survived?" "342" "disk full" false false
        ⟨[], []⟩ ⟨.absent, .absent⟩).exitCode = 1 := by
  refine ⟨?_, rfl⟩
  decide

/-- Claim C5, amended: the CLI records the analysis BEFORE printing the
result.  When the save succeeds the result is printed and the process exits
normally; when any write of the save fails, the exception handler prints
only an error line and exits with status 1, so the already-computed result
is not delivered. -/
theorem C5_record_before_print (tsI tsS question result errMsg : String)
    (kb : KB) (disk : Disk) :
    result ∈ (cliMain tsI tsS question result errMsg true true kb disk).output ∧
    (cliMain tsI tsS question result errMsg true true kb disk).exitCode = 0 ∧
    (∀ wAna : Bool,
      (cliMain tsI tsS question result errMsg false wAna kb disk).output =
        ["\nAnalyzing...", "\nError: " ++ errMsg] ∧
      (cliMain tsI tsS question result errMsg false wAna kb disk).exitCode = 1) ∧
    (cliMain tsI tsS question result errMsg true false kb disk).output =
      ["\nAnalyzing...", "\nError: " ++ errMsg] ∧
    (cliMain tsI tsS question result errMsg true false kb disk).exitCode = 1 := by
  refine ⟨?_, rfl, fun wAna => ⟨rfl, rfl⟩, rfl, rfl⟩
  show result ∈ (["\nAnalyzing..."] ++ ["\nResult:", result] ++ _)
  simp

/-- Loading a disk produced by a successful save of `ins` insights and an
empty history reconstructs exactly that store. -/
theorem load_after_saves (ins : List DataInsight) :
    load_knowledge ⟨.json (serializeInsights ins), .json (serializeHistory [])⟩ =
      .ok ⟨ins, []⟩ := by
  simp [load_knowledge, loadInsights_serialize, loadHistory_serialize,
        bind, Except.bind, pure, Except.pure]

/-- Claim C6, confirmed: starting from a fresh store over an empty
directory, adding any sequence of insights via `add_insight` (with
successful writes) and then constructing a fresh store from the resulting
disk yields exactly the in-memory store of the original — same insight
order and field values (the case of the empty sequence loads an absent
file as an empty collection).  Instantiating the sequence at lengths 0, 1
and 100 gives the N of the claim. -/
theorem C6_roundtrip (xs : List DataInsight) :
    load_knowledge (runOps (xs.map fun i => KBOp.addInsight true true i)
        (⟨[], []⟩, ⟨.absent, .absent⟩)).2 =
      .ok (runOps (xs.map fun i => KBOp.addInsight true true i)
        (⟨[], []⟩, ⟨.absent, .absent⟩)).1 := by
  cases xs with
  | nil => rfl
  | cons i rest =>
      have h := runOps_add (i :: rest) ⟨[], []⟩ ⟨.absent, .absent⟩
      rw [h.1, h.2.2 (List.cons_ne_nil i rest)]
      show load_knowledge ⟨.json (serializeInsights ([] ++ i :: rest)),
          .json (serializeHistory [])⟩ = .ok (⟨[] ++ i :: rest, []⟩ : KB)
      rw [List.nil_append]
      exact load_after_saves (i :: rest)

/-- Claim C7, counterexample: the insights file containing the JSON text of
an empty object exists and is not of the documented array-of-insight-objects
structure, yet store initialization does not raise — it silently yields
empty collections — refuting the stated equivalence between initialization
errors and unparseable persisted files. -/
theorem C7_counterexample :
    ¬ ((¬ ∃ kb, load_knowledge diskEmptyObj = .ok kb) ↔
        (insightsFileUnparseable diskEmptyObj.insightsFile ∨
         historyFileUnparseable diskEmptyObj.analysisFile)) := by
  intro h
  exact h.mpr (Or.inl rfl) ⟨⟨[], []⟩, rfl⟩

/-- Claim C7, amended: missing files load as empty collections without
error, and a file that is not valid JSON raises, whichever file it is; at
the element level, `DataInsight(**item)` succeeds exactly on objects with
the six expected keys.  However no dedicated `StorageError` class exists
(the raw decode errors propagate), and a JSON value whose Python iteration
is empty — such as an empty object — is silently accepted as an empty
collection even though it is not the documented structure. -/
theorem C7_load_behavior :
    load_knowledge ⟨.absent, .absent⟩ = .ok ⟨[], []⟩ ∧
    (∀ a : FileContent, load_knowledge ⟨.torn, a⟩ = .error .jsonDecodeError) ∧
    (∀ ds : List DataInsight,
      load_knowledge ⟨.json (serializeInsights ds), .torn⟩ =
        .error .jsonDecodeError) ∧
    (∀ j : JsonVal, (∃ d, decodeInsight j = .ok d) ↔ isInsightObject j = true) ∧
    loadCollection decodeInsight (.json (.obj [])) = .ok [] := by
  refine ⟨rfl, fun a => rfl, ?_, decodeInsight_ok_iff, rfl⟩
  intro ds
  have h1 := loadInsights_serialize ds
  have h2 : loadCollection decodeStep (FileContent.torn) = .error .jsonDecodeError := rfl
  simp only [load_knowledge, bind, Except.bind, h1, h2]

/-- Claim C8, confirmed: K `record_analysis` calls on a store whose history
is empty leave exactly those K steps, in call order, as the history; and no
operation of the store removes or modifies an existing entry of either
collection — every operation extends each collection by a (possibly empty)
suffix. -/
theorem C8_append_only :
    (∀ steps : List AnalysisStep, ∀ ins0 : List DataInsight, ∀ disk : Disk,
      (runOps (steps.map fun s => KBOp.recordAnalysis true true s)
        (⟨ins0, []⟩, disk)).1.analysis_history = steps) ∧
    (∀ op : KBOp, ∀ st : KB × Disk,
      (∃ t, (stepOp op st).1.analysis_history = st.1.analysis_history ++ t) ∧
      (∃ t, (stepOp op st).1.insights = st.1.insights ++ t)) := by
  constructor
  · intro steps ins0 disk
    rw [runOps_record steps ⟨ins0, []⟩ disk]
    simp
  · intro op st
    cases op with
    | addInsight wi wa i =>
        exact ⟨⟨[], (List.append_nil _).symm⟩, ⟨[i], rfl⟩⟩
    | recordAnalysis wi wa s =>
        exact ⟨⟨[s], rfl⟩, ⟨[], (List.append_nil _).symm⟩⟩
    | getRelevantInsights q =>
        exact ⟨⟨[], (List.append_nil _).symm⟩, ⟨[], (List.append_nil _).symm⟩⟩
    | getSimilarAnalyses q =>
        exact ⟨⟨[], (List.append_nil _).symm⟩, ⟨[], (List.append_nil _).symm⟩⟩

/-- Claim C9, confirmed: `add_insight` leaves the in-memory history
untouched and `record_analysis` leaves the in-memory insights untouched,
yet each successful mutation writes BOTH persisted files — the file of the
unchanged collection is rewritten with its (unchanged) serialization. -/
theorem C9_frame_and_both_files (kb : KB) (disk : Disk) (insight : DataInsight)
    (step : AnalysisStep) :
    (add_insight true true kb disk insight).kb.analysis_history = kb.analysis_history ∧
    (add_insight true true kb disk insight).writes =
      ["insights.json", "analysis_history.json"] ∧
    (add_insight true true kb disk insight).disk =
      ⟨.json (serializeInsights (kb.insights ++ [insight])),
       .json (serializeHistory kb.analysis_history)⟩ ∧
    (record_analysis true true kb disk step).kb.insights = kb.insights ∧
    (record_analysis true true kb disk step).writes =
      ["insights.json", "analysis_history.json"] ∧
    (record_analysis true true kb disk step).disk =
      ⟨.json (serializeInsights kb.insights),
       .json (serializeHistory (kb.analysis_history ++ [step]))⟩ :=
  ⟨rfl, rfl, rfl, rfl, rfl, rfl⟩

/-- Claim C10, confirmed: on a table with at least one row,
`get_survival_rate` returns 100 times the mean of the Survived column, and
when every Survived value is 0 or 1 the returned value lies in [0, 100] —
a percentage, not a fraction in [0, 1]. -/
theorem C10_survival_rate (rows : List Int) (h : rows ≠ []) :
    get_survival_rate rows = some (100 * columnMean rows) ∧
    ((∀ x ∈ rows, x = 0 ∨ x = 1) →
      0 ≤ 100 * columnMean rows ∧ 100 * columnMean rows ≤ 100) := by
  constructor
  · cases rows with
    | nil => exact absurd rfl h
    | cons a t => simp [get_survival_rate, sqlAvg, columnMean, mul_comm]
  · intro hmem
    obtain ⟨hs0, hs1⟩ := sum_bounds_01 rows hmem
    have hl : 0 < rows.length := List.length_pos.mpr h
    have hlpos : 0 < (rows.length : Rat) := by exact_mod_cast hl
    have hsum0 : (0 : Rat) ≤ (rows.sum : Rat) := by exact_mod_cast hs0
    have hsumle : (rows.sum : Rat) ≤ (rows.length : Rat) := by exact_mod_cast hs1
    constructor
    · exact mul_nonneg (by norm_num) (div_nonneg hsum0 (le_of_lt hlpos))
    · have hle1 : columnMean rows ≤ 1 := by
        show (rows.sum : Rat) / (rows.length : Rat) ≤ 1
        exact (div_le_one hlpos).mpr hsumle
      calc 100 * columnMean rows ≤ 100 * 1 :=
            mul_le_mul_of_nonneg_left hle1 (by norm_num)
        _ = 100 := by norm_num

/-- Witness for claim C10 at a concrete table: three passengers of whom two
survived give a survival rate of 100 times two thirds. -/
theorem C10_survival_rate_witness :
    get_survival_rate [1, 0, 1] = some (100 * columnMean [1, 0, 1]) ∧
    (0 ≤ 100 * columnMean [1, 0, 1] ∧ 100 * columnMean [1, 0, 1] ≤ 100) :=
  ⟨(C10_survival_rate [1, 0, 1] (by decide)).1,
   (C10_survival_rate [1, 0, 1] (by decide)).2 (by decide)⟩
